import Mathlib

/-!
Verification of `s_mises.py`, a post-processing script that adds a signed
von Mises stress field (`S_MISES`) to each frame of a result archive.

The numeric arrays of the script (numpy `ndarray`) are modelled as a shape
list together with a flattened list of rational values; numeric entries are
`ℚ` (exact arithmetic standing in for the script's machine floats).  The
script's `assert`-raised failures (the spec's `ShapeError`) and the Python
exceptions of the outer loops are modelled with `Except String`.
-/

/-- A numpy ndarray: its shape, and its entries flattened in row-major
order.  A well-formed array has `data.length = shape.prod`; theorems state
that where it matters. -/
structure NDArray where
  shape : List Nat
  data : List ℚ
deriving Repr, DecidableEq

instance {ε α : Type} [DecidableEq ε] [DecidableEq α] : DecidableEq (Except ε α) := fun a b =>
  match a, b with
  | .ok x, .ok y =>
    if h : x = y then .isTrue (by rw [h]) else .isFalse (by intro hc; cases hc; exact h rfl)
  | .error x, .error y =>
    if h : x = y then .isTrue (by rw [h]) else .isFalse (by intro hc; cases hc; exact h rfl)
  | .ok _, .error _ => .isFalse (by intro hc; cases hc)
  | .error _, .ok _ => .isFalse (by intro hc; cases hc)

/-- `sign_trace(A)` from `s_mises.py`.

`A = np.asarray(A)` is required to be 2-dimensional with 6 columns
(Abaqus symmetric tensor format `S11, S22, S33, S12, S13, S23`); the two
`assert` statements are the spec's `ShapeError`.  `trace` is
`np.sum(A[:,0:3], axis=1)`: row `i` of `A` occupies flattened positions
`6*i .. 6*i+5`, so its trace is the sum of the first three of those.
`result = np.ones_like(trace); result[trace < 0] = -1` gives
`if t < 0 then -1 else 1`, and `result.reshape([-1,1])` yields the column
shape `[N, 1]`. -/
def sign_trace (A : NDArray) : Except String NDArray :=
  if A.shape.length ≠ 2 then
    .error "Data must be a 2D array of tensors"
  else if A.shape.getD 1 0 ≠ 6 then
    .error "Data elements must be in Abaqus symmetric tensor format"
  else
    let N := A.shape.getD 0 0
    let trace := (List.range N).map (fun i => ((A.data.drop (6 * i)).take 3).sum)
    .ok ⟨[N, 1], trace.map (fun t => if t < 0 then -1 else 1)⟩

/-- C1 -/
theorem sign_trace_spec :
    (∀ (A : NDArray) (N : Nat), A.shape = [N, 6] →
      ∃ B, sign_trace A = .ok B ∧ B.shape = [N, 1] ∧ B.data.length = N ∧
        ∀ i, i < N →
          B.data.getD i 0 =
            (if 0 ≤ ((A.data.drop (6 * i)).take 3).sum then (1 : ℚ) else -1)) ∧
    sign_trace ⟨[3, 6], [0.1, 0.2, -0.4, 0.4, 0.5, 0.6,
                         0.2, 0.0, -0.2, 0.3, -0.5, 0.0,
                         0.2, 0.0, 0.0, 0.3, -0.5, 0.0]⟩ =
      .ok ⟨[3, 1], [-1, 1, 1]⟩ := by
  constructor
  · intro A N h
    refine ⟨⟨[N, 1], ((List.range N).map (fun i => ((A.data.drop (6 * i)).take 3).sum)).map
      (fun t => if t < 0 then -1 else 1)⟩, ?_, rfl, by simp, ?_⟩
    · simp [sign_trace, h]
    · intro i hi
      rw [List.getD_eq_getElem?_getD, List.getElem?_map, List.getElem?_map,
        List.getElem?_range hi]
      rcases lt_or_le (((A.data.drop (6 * i)).take 3).sum) 0 with hlt | hle
      · simp [hlt, not_le.mpr hlt]
      · simp [not_lt.mpr hle, hle]
  · norm_num [sign_trace, List.range_succ]

/-- C1 witness: the general part of `sign_trace_spec` applied to a concrete
2-row batch. -/
theorem sign_trace_spec_witness :
    (NDArray.mk [2, 6] [1, 0, 0, 0, 0, 0, -1, 0, 0, 0, 0, 0]).shape = [2, 6] ∧
    (∃ B, sign_trace ⟨[2, 6], [1, 0, 0, 0, 0, 0, -1, 0, 0, 0, 0, 0]⟩ = .ok B ∧
      B.shape = [2, 1] ∧ B.data.length = 2 ∧
        ∀ i, i < 2 →
          B.data.getD i 0 =
            (if 0 ≤ (((NDArray.mk [2, 6] [1, 0, 0, 0, 0, 0, -1, 0, 0, 0, 0, 0]).data.drop
                (6 * i)).take 3).sum then (1 : ℚ) else -1)) :=
  ⟨rfl, sign_trace_spec.1 ⟨[2, 6], [1, 0, 0, 0, 0, 0, -1, 0, 0, 0, 0, 0]⟩ 2 rfl⟩

/-- C3 -/
theorem sign_trace_shape_error (A : NDArray) :
    ((∃ e, sign_trace A = .error e) ↔ (A.shape.length ≠ 2 ∨ A.shape.getD 1 0 ≠ 6)) ∧
    ((∃ B, sign_trace A = .ok B) ↔ (A.shape.length = 2 ∧ A.shape.getD 1 0 = 6)) := by
  by_cases h1 : A.shape.length = 2
  · obtain ⟨a, b, hab⟩ := List.length_eq_two.mp h1
    by_cases h2 : b = 6
    · subst h2
      simp [sign_trace, hab]
    · simp [sign_trace, hab, h2]
  · simp [sign_trace, h1]

/-- C10 -/
theorem sign_trace_empty_batch :
    sign_trace ⟨[0, 6], []⟩ = .ok ⟨[0, 1], []⟩ := by decide

/-! ## The Field Synthesizer (`calculate` in `s_mises.py`) -/

/-- `np.unique` on integer element labels: the sorted list of distinct
values. -/
def npUnique (l : List Int) : List Int :=
  List.insertionSort (· ≤ ·) l.dedup

/-- Truthiness test `np.any(sectionPoint)`: `sectionPoint` is either absent
(`None`, falsy) or an array of values, truthy when some entry is
nonzero. -/
def npAny : Option (List Int) → Bool
  | none => false
  | some l => l.any (fun x => x ≠ 0)

/-- Elementwise product of two arrays, `signs * data` in the source; the
operands have equal shapes wherever the script multiplies (numpy
broadcasting of two equal shapes is the pointwise product). -/
def npMul (A B : NDArray) : NDArray :=
  ⟨A.shape, List.zipWith (· * ·) A.data B.data⟩

/-- One `bulkDataBlocks` entry of a field: attributes read and written by
`calculate`.  `inst` renders the source's `instance` attribute (a reserved
word in Lean). -/
structure Block where
  position : String
  inst : String
  elementLabels : List Int
  data : NDArray
  sectionPoint : Option (List Int)
deriving Repr, DecidableEq

/-- The body of the block loop of `calculate`: from a raw stress block and
the matching scalar MISES block, build the `options` passed to
`S_MISES.addData`.  A `sign_trace` failure (`ShapeError`) propagates. -/
def calcBlock (Sblock MISESblock : Block) : Except String Block :=
  match sign_trace Sblock.data with
  | .error e => .error e
  | .ok signs =>
    .ok { position := MISESblock.position
          inst := MISESblock.inst
          elementLabels := npUnique MISESblock.elementLabels
          data := npMul signs MISESblock.data
          sectionPoint :=
            if npAny MISESblock.sectionPoint then MISESblock.sectionPoint else none }

lemma npUnique_nodup (l : List Int) : (npUnique l).Nodup :=
  (List.perm_insertionSort _ l.dedup).nodup_iff.mpr l.nodup_dedup

lemma npUnique_sorted (l : List Int) : (npUnique l).Sorted (· ≤ ·) :=
  List.sorted_insertionSort _ l.dedup

lemma zipWith_getD (f : ℚ → ℚ → ℚ) :
    ∀ (l1 l2 : List ℚ) (i : Nat), i < l1.length → i < l2.length →
      (List.zipWith f l1 l2).getD i 0 = f (l1.getD i 0) (l2.getD i 0) := by
  intro l1
  induction l1 with
  | nil => intro l2 i h1 _; exact absurd h1 (by simp)
  | cons a l1 ih =>
    intro l2 i h1 h2
    cases l2 with
    | nil => exact absurd h2 (by simp)
    | cons b l2 =>
      cases i with
      | zero => simp
      | succ j =>
        simp only [List.zipWith_cons_cons, List.getD_cons_succ]
        exact ih l2 j (by simpa using h1) (by simpa using h2)

lemma npAny_eq_true (o : Option (List Int)) :
    npAny o = true ↔ ∃ l, o = some l ∧ ∃ x ∈ l, x ≠ 0 := by
  cases o <;> simp [npAny]

/-- C2 -/
theorem calcBlock_multiplicative (Sblock MISESblock signs out : _)
    (hsign : sign_trace Sblock.data = .ok signs)
    (hshape : signs.shape = MISESblock.data.shape)
    (hlen : signs.data.length = MISESblock.data.data.length)
    (hout : calcBlock Sblock MISESblock = .ok out) :
    out.data.shape = MISESblock.data.shape ∧
    out.data.data.length = MISESblock.data.data.length ∧
    ∀ i, i < MISESblock.data.data.length →
      out.data.data.getD i 0 = signs.data.getD i 0 * MISESblock.data.data.getD i 0 := by
  unfold calcBlock at hout
  rw [hsign] at hout
  cases hout
  refine ⟨hshape, by simp [npMul, hlen], ?_⟩
  intro i hi
  exact zipWith_getD _ _ _ i (hlen ▸ hi) hi

def Sb0 : Block :=
  ⟨"INTEGRATION_POINT", "PART-1-1", [1], ⟨[1, 6], [1, 0, 0, 0, 0, 0]⟩, none⟩

def Mb0 : Block :=
  ⟨"INTEGRATION_POINT", "PART-1-1", [1], ⟨[1, 1], [5]⟩, none⟩

def signs0 : NDArray := ⟨[1, 1], [1]⟩

def out0 : Block :=
  ⟨"INTEGRATION_POINT", "PART-1-1", [1], ⟨[1, 1], [5]⟩, none⟩

lemma sign_trace_Sb0 : sign_trace Sb0.data = .ok signs0 := by
  norm_num [sign_trace, Sb0, signs0, List.range_succ]

lemma calcBlock_Sb0_Mb0 : calcBlock Sb0 Mb0 = .ok out0 := by
  rw [calcBlock, sign_trace_Sb0]
  norm_num [Sb0, Mb0, out0, signs0, npMul, npUnique, npAny,
    List.insertionSort, List.orderedInsert]

/-- C2 witness: `calcBlock_multiplicative` at a concrete one-row block. -/
theorem calcBlock_multiplicative_witness :
    (sign_trace Sb0.data = .ok signs0 ∧ signs0.shape = Mb0.data.shape ∧
      signs0.data.length = Mb0.data.data.length ∧ calcBlock Sb0 Mb0 = .ok out0) ∧
    (out0.data.shape = Mb0.data.shape ∧
     out0.data.data.length = Mb0.data.data.length ∧
     ∀ i, i < Mb0.data.data.length →
       out0.data.data.getD i 0 = signs0.data.getD i 0 * Mb0.data.data.getD i 0) :=
  ⟨⟨sign_trace_Sb0, rfl, rfl, calcBlock_Sb0_Mb0⟩,
    calcBlock_multiplicative Sb0 Mb0 signs0 out0 sign_trace_Sb0 rfl rfl calcBlock_Sb0_Mb0⟩

/-- C5 -/
theorem calcBlock_labels_nodup (Sblock MISESblock out : _)
    (hout : calcBlock Sblock MISESblock = .ok out) :
    out.elementLabels.Nodup := by
  unfold calcBlock at hout
  cases hs : sign_trace Sblock.data with
  | error e => rw [hs] at hout; cases hout
  | ok signs =>
    rw [hs] at hout
    cases hout
    exact npUnique_nodup _

def Sb5 : Block :=
  ⟨"INTEGRATION_POINT", "PART-1-1", [3, 1, 3], ⟨[1, 6], [1, 0, 0, 0, 0, 0]⟩, none⟩

def Mb5 : Block :=
  ⟨"INTEGRATION_POINT", "PART-1-1", [3, 1, 3], ⟨[1, 1], [2]⟩, none⟩

def out5 : Block :=
  ⟨"INTEGRATION_POINT", "PART-1-1", [1, 3], ⟨[1, 1], [2]⟩, none⟩

lemma calcBlock_Sb5_Mb5 : calcBlock Sb5 Mb5 = .ok out5 := by
  have hs : sign_trace Sb5.data = .ok ⟨[1, 1], [1]⟩ := by
    norm_num [sign_trace, Sb5, List.range_succ]
  rw [calcBlock, hs]
  norm_num [Sb5, Mb5, out5, npMul, npUnique, npAny,
    List.insertionSort, List.orderedInsert, List.dedup_cons_of_mem,
    List.dedup_cons_of_not_mem]

/-- C5 witness: a source block with repeated element labels `[3, 1, 3]`
synthesizes a block with duplicate-free labels. -/
theorem calcBlock_labels_nodup_witness :
    calcBlock Sb5 Mb5 = .ok out5 ∧ out5.elementLabels.Nodup :=
  ⟨calcBlock_Sb5_Mb5, calcBlock_labels_nodup Sb5 Mb5 out5 calcBlock_Sb5_Mb5⟩

/-- C9 -/
theorem calcBlock_labels_sorted (Sblock MISESblock out : _)
    (hout : calcBlock Sblock MISESblock = .ok out) :
    out.elementLabels.Sorted (· < ·) := by
  unfold calcBlock at hout
  cases hs : sign_trace Sblock.data with
  | error e => rw [hs] at hout; cases hout
  | ok signs =>
    rw [hs] at hout
    cases hout
    exact (npUnique_sorted _).lt_of_le (npUnique_nodup _)

def Sb9 : Block :=
  ⟨"INTEGRATION_POINT", "PART-1-1", [7, 2, 7, 5], ⟨[1, 6], [0, 0, 1, 0, 0, 0]⟩, none⟩

def Mb9 : Block :=
  ⟨"INTEGRATION_POINT", "PART-1-1", [7, 2, 7, 5], ⟨[1, 1], [4]⟩, none⟩

def out9 : Block :=
  ⟨"INTEGRATION_POINT", "PART-1-1", [2, 5, 7], ⟨[1, 1], [4]⟩, none⟩

lemma calcBlock_Sb9_Mb9 : calcBlock Sb9 Mb9 = .ok out9 := by
  have hs : sign_trace Sb9.data = .ok ⟨[1, 1], [1]⟩ := by
    norm_num [sign_trace, Sb9, List.range_succ]
  rw [calcBlock, hs]
  norm_num [Sb9, Mb9, out9, npMul, npUnique, npAny,
    List.insertionSort, List.orderedInsert, List.dedup_cons_of_mem,
    List.dedup_cons_of_not_mem]

/-- C9 witness: unsorted repeated labels `[7, 2, 7, 5]` come out strictly
increasing. -/
theorem calcBlock_labels_sorted_witness :
    calcBlock Sb9 Mb9 = .ok out9 ∧ out9.elementLabels.Sorted (· < ·) :=
  ⟨calcBlock_Sb9_Mb9, calcBlock_labels_sorted Sb9 Mb9 out9 calcBlock_Sb9_Mb9⟩

/-- C6 -/
theorem calcBlock_sectionPoint (Sblock MISESblock out : _)
    (hout : calcBlock Sblock MISESblock = .ok out) :
    ((out.sectionPoint ≠ none) ↔ ∃ l, MISESblock.sectionPoint = some l ∧ ∃ x ∈ l, x ≠ 0) ∧
    (out.sectionPoint ≠ none → out.sectionPoint = MISESblock.sectionPoint) := by
  unfold calcBlock at hout
  cases hs : sign_trace Sblock.data with
  | error e => rw [hs] at hout; cases hout
  | ok signs =>
    rw [hs] at hout
    cases hout
    dsimp only
    by_cases ha : npAny MISESblock.sectionPoint = true
    · obtain ⟨l, hl, hx⟩ := (npAny_eq_true _).mp ha
      rw [if_pos ha]
      refine ⟨⟨fun _ => ⟨l, hl, hx⟩, fun _ => by rw [hl]; simp⟩, fun _ => rfl⟩
    · rw [if_neg ha]
      refine ⟨⟨fun h => absurd rfl h, fun hex => absurd ((npAny_eq_true _).mpr hex) ha⟩,
        fun h => absurd rfl h⟩

def Sb6 : Block :=
  ⟨"INTEGRATION_POINT", "PART-1-1", [1], ⟨[1, 6], [2, 0, 0, 0, 0, 0]⟩, some [5]⟩

def Mb6 : Block :=
  ⟨"INTEGRATION_POINT", "PART-1-1", [1], ⟨[1, 1], [3]⟩, some [5]⟩

def out6 : Block :=
  ⟨"INTEGRATION_POINT", "PART-1-1", [1], ⟨[1, 1], [3]⟩, some [5]⟩

lemma calcBlock_Sb6_Mb6 : calcBlock Sb6 Mb6 = .ok out6 := by
  have hs : sign_trace Sb6.data = .ok ⟨[1, 1], [1]⟩ := by
    norm_num [sign_trace, Sb6, List.range_succ]
  rw [calcBlock, hs]
  norm_num [Sb6, Mb6, out6, npMul, npUnique, npAny,
    List.insertionSort, List.orderedInsert]

/-- C6 witness: a block with section point `[5]` keeps the attribute. -/
theorem calcBlock_sectionPoint_witness :
    calcBlock Sb6 Mb6 = .ok out6 ∧
    (((out6.sectionPoint ≠ none) ↔ ∃ l, Mb6.sectionPoint = some l ∧ ∃ x ∈ l, x ≠ 0) ∧
     (out6.sectionPoint ≠ none → out6.sectionPoint = Mb6.sectionPoint)) :=
  ⟨calcBlock_Sb6_Mb6, calcBlock_sectionPoint Sb6 Mb6 out6 calcBlock_Sb6_Mb6⟩

/-! ## The Frame Walker (`fromOdb` in `s_mises.py`)

`getScalarField` (the derivation of the MISES scalar field from the raw
stress field) belongs to the external archive API, so it is passed in as a
function argument `gsf`. -/

/-- A `FieldOutput` of a frame: name, description, numeric type, and its
bulk data blocks. -/
structure FieldOutput where
  name : String
  description : String
  type : String
  bulkDataBlocks : List Block
deriving Repr, DecidableEq

/-- A frame: its description and its ordered `fieldOutputs` mapping from
field name to field. -/
structure Frame where
  description : String
  fieldOutputs : List (String × FieldOutput)
deriving Repr, DecidableEq

/-- `foName = 'S_MISES'`, the module constant naming the output field. -/
def foName : String := "S_MISES"

/-- Lookup in a frame's `fieldOutputs` mapping (first binding wins). -/
def lookupF (k : String) : List (String × FieldOutput) → Option FieldOutput
  | [] => none
  | (k2, v) :: rest => if k2 = k then some v else lookupF k rest

/-- Run a fallible loop body over a list, stopping at the first raised
exception (the semantics of a Python `for` whose body may raise). -/
def mapE {α β : Type} (g : α → Except String β) : List α → Except String (List β)
  | [] => .ok []
  | a :: l =>
    match g a with
    | .error e => .error e
    | .ok b =>
      match mapE g l with
      | .error e => .error e
      | .ok bs => .ok (b :: bs)

/-- `calculate(outputFrame)`: read field `'S'`, derive the MISES scalar
field from it via `gsf`, run the block loop, and register the new
`S_MISES` field in the frame.  The source creates the field first and
appends one block per loop iteration; a raised exception discards the
frame (and the whole archive run), so the net effect on a frame that
completes is appending the one new binding. -/
def calculate (gsf : FieldOutput → FieldOutput) (outputFrame : Frame) : Except String Frame :=
  match lookupF "S" outputFrame.fieldOutputs with
  | none => .error "KeyError: S"
  | some S =>
    let MISES := gsf S
    match mapE (fun p => calcBlock p.1 p.2) (S.bulkDataBlocks.zip MISES.bulkDataBlocks) with
    | .error e => .error e
    | .ok bs =>
      .ok ⟨outputFrame.description,
        outputFrame.fieldOutputs ++
          [(foName, ⟨foName, "Signed Mises equivalent stress", MISES.type, bs⟩)]⟩

/-- The frame loop body of `fromOdb`: process a frame only when it has an
`'S'` field and no `S_MISES` field yet. -/
def processFrame (gsf : FieldOutput → FieldOutput) (frame : Frame) : Except String Frame :=
  if (lookupF "S" frame.fieldOutputs).isSome && (lookupF foName frame.fieldOutputs).isNone then
    calculate gsf frame
  else
    .ok frame

/-- One step of the archive: its name and its ordered frames. -/
structure OdbStep where
  name : String
  frames : List Frame
deriving Repr, DecidableEq

/-- The archive: its steps in stored order (`odb.steps.values()`). -/
structure Odb where
  steps : List OdbStep
deriving Repr, DecidableEq

def processStep (gsf : FieldOutput → FieldOutput) (step : OdbStep) : Except String OdbStep :=
  match mapE (processFrame gsf) step.frames with
  | .error e => .error e
  | .ok fs => .ok ⟨step.name, fs⟩

/-- `fromOdb(odbName)` minus the open/close bracket: walk every step and
every frame, in stored order. -/
def fromOdb (gsf : FieldOutput → FieldOutput) (odb : Odb) : Except String Odb :=
  match mapE (processStep gsf) odb.steps with
  | .error e => .error e
  | .ok ss => .ok ⟨ss⟩

lemma lookupF_append_self (k : String) (F : FieldOutput) :
    ∀ l, lookupF k l = none → lookupF k (l ++ [(k, F)]) = some F := by
  intro l
  induction l with
  | nil => intro _; simp [lookupF]
  | cons p rest ih =>
    intro h
    obtain ⟨k2, v⟩ := p
    by_cases hk : k2 = k
    · simp [lookupF, hk] at h
    · simp only [List.cons_append, lookupF, hk, if_false] at h ⊢
      exact ih h

lemma calculate_ok (gsf : FieldOutput → FieldOutput) (f f2 : Frame)
    (h : calculate gsf f = .ok f2) :
    ∃ F, f2.fieldOutputs = f.fieldOutputs ++ [(foName, F)] := by
  unfold calculate at h
  split at h
  · cases h
  · dsimp only at h
    split at h
    · cases h
    · cases h
      exact ⟨_, rfl⟩

lemma processFrame_fix (gsf : FieldOutput → FieldOutput) (f f2 : Frame)
    (h : processFrame gsf f = .ok f2) : processFrame gsf f2 = .ok f2 := by
  unfold processFrame at h
  by_cases hc : ((lookupF "S" f.fieldOutputs).isSome &&
      (lookupF foName f.fieldOutputs).isNone) = true
  · rw [if_pos hc] at h
    have hnone : lookupF foName f.fieldOutputs = none := by
      have h2 := (Bool.and_eq_true _ _).mp hc |>.2
      cases hl : lookupF foName f.fieldOutputs with
      | none => rfl
      | some v => rw [hl] at h2; cases h2
    obtain ⟨F, hf2⟩ := calculate_ok gsf f f2 h
    have hsome : lookupF foName f2.fieldOutputs = some F := by
      rw [hf2]
      exact lookupF_append_self foName F f.fieldOutputs hnone
    simp [processFrame, hsome]
  · rw [if_neg hc] at h
    cases h
    unfold processFrame
    rw [if_neg hc]

lemma mapE_fix {α : Type} (g : α → Except String α)
    (hg : ∀ a b, g a = .ok b → g b = .ok b) :
    ∀ l l2, mapE g l = .ok l2 → mapE g l2 = .ok l2 := by
  intro l
  induction l with
  | nil =>
    intro l2 h
    unfold mapE at h
    cases h
    rfl
  | cons a l ih =>
    intro l2 h
    unfold mapE at h
    cases hga : g a with
    | error e => rw [hga] at h; cases h
    | ok b =>
      rw [hga] at h
      cases hml : mapE g l with
      | error e => rw [hml] at h; cases h
      | ok bs =>
        rw [hml] at h
        cases h
        unfold mapE
        rw [hg a b hga, ih bs hml]

lemma processStep_fix (gsf : FieldOutput → FieldOutput) (s s2 : OdbStep)
    (h : processStep gsf s = .ok s2) : processStep gsf s2 = .ok s2 := by
  unfold processStep at h
  cases hm : mapE (processFrame gsf) s.frames with
  | error e => rw [hm] at h; cases h
  | ok fs =>
    rw [hm] at h
    cases h
    unfold processStep
    dsimp only
    rw [mapE_fix (processFrame gsf) (processFrame_fix gsf) s.frames fs hm]

/-- C4 -/
theorem fromOdb_guard_and_idempotent :
    (∀ (gsf : FieldOutput → FieldOutput) (frame : Frame),
      (((lookupF "S" frame.fieldOutputs).isSome &&
          (lookupF foName frame.fieldOutputs).isNone) = true →
        processFrame gsf frame = calculate gsf frame) ∧
      (((lookupF "S" frame.fieldOutputs).isSome &&
          (lookupF foName frame.fieldOutputs).isNone) = false →
        processFrame gsf frame = .ok frame)) ∧
    (∀ (gsf : FieldOutput → FieldOutput) (odb odb2 : Odb),
      fromOdb gsf odb = .ok odb2 → fromOdb gsf odb2 = .ok odb2) := by
  constructor
  · intro gsf frame
    constructor
    · intro hc
      unfold processFrame
      rw [if_pos hc]
    · intro hc
      unfold processFrame
      rw [if_neg (by simp [hc])]
  · intro gsf odb odb2 h
    unfold fromOdb at h
    cases hm : mapE (processStep gsf) odb.steps with
    | error e => rw [hm] at h; cases h
    | ok ss =>
      rw [hm] at h
      cases h
      unfold fromOdb
      dsimp only
      rw [mapE_fix (processStep gsf) (processStep_fix gsf) odb.steps ss hm]

def sField0 : FieldOutput := ⟨"S", "Stress components", "TENSOR_3D_FULL", [Sb0]⟩

def mField0 : FieldOutput := ⟨"MISES", "Mises equivalent stress", "SCALAR", [Mb0]⟩

def gsf0 : FieldOutput → FieldOutput := fun _ => mField0

def frame0 : Frame := ⟨"Increment 1", [("S", sField0)]⟩

def odb0 : Odb := ⟨[⟨"Step-1", [frame0]⟩]⟩

def odb1 : Odb :=
  ⟨[⟨"Step-1", [⟨"Increment 1", [("S", sField0),
    (foName, ⟨foName, "Signed Mises equivalent stress", "SCALAR", [out0]⟩)]⟩]⟩]⟩

lemma fromOdb_odb0 : fromOdb gsf0 odb0 = .ok odb1 := by
  simp [fromOdb, processStep, processFrame, calculate, mapE, lookupF, odb0, odb1,
    frame0, gsf0, sField0, mField0, foName, calcBlock_Sb0_Mb0]

/-- C4 witness: a one-step, one-frame archive holding only `'S'` gains
`S_MISES` on the first pass and is untouched by a second pass. -/
theorem fromOdb_guard_and_idempotent_witness :
    fromOdb gsf0 odb0 = .ok odb1 ∧ fromOdb gsf0 odb1 = .ok odb1 :=
  ⟨fromOdb_odb0, fromOdb_guard_and_idempotent.2 gsf0 odb0 odb1 fromOdb_odb0⟩

/-! ## The module-level argument loop

The loop at the bottom of `s_mises.py`:

    for arg in sys.argv[1:]:
        if "--help" == arg: print(__doc__)
        elif "--test" == arg: doctest.testmod(verbose=True)
        else:
            if len(sys.argv) > 2: print(arg)
            fromOdb(odbName = arg)

Observable actions are recorded as a trace; `run` abstracts
`fromOdb` on an archive path (`.error` when that archive's processing
raises).  An uncaught exception terminates the loop: the trace stops and
the error is reported. -/

/-- One observable action of the argument loop. -/
inductive Effect where
  | printDoc : Effect
  | runTests : Effect
  | echo (arg : String) : Effect
  | processOdb (path : String) : Effect
deriving Repr, DecidableEq

/-- The argument loop over `sys.argv[1:]`; `n` is `len(sys.argv)`.
Returns the trace of actions and the uncaught exception, if any. -/
def argLoop (run : String → Except String Unit) (n : Nat) :
    List String → List Effect × Option String
  | [] => ([], none)
  | arg :: rest =>
    if arg = "--help" then
      let r := argLoop run n rest
      (.printDoc :: r.1, r.2)
    else if arg = "--test" then
      let r := argLoop run n rest
      (.runTests :: r.1, r.2)
    else
      let pre := if 2 < n then [Effect.echo arg] else []
      match run arg with
      | .error e => (pre ++ [.processOdb arg], some e)
      | .ok _ =>
        let r := argLoop run n rest
        (pre ++ .processOdb arg :: r.1, r.2)

/-- The whole command surface: `argv` is `sys.argv` (program name
included). -/
def mainLoop (run : String → Except String Unit) (argv : List String) :
    List Effect × Option String :=
  argLoop run argv.length argv.tail

def okRun : String → Except String Unit := fun _ => .ok ()

def badRun : String → Except String Unit :=
  fun a => if a = "bad.odb" then .error "boom" else .ok ()

/-- C7 counterexample: two archives are supplied, processing of the first
raises, and the second archive is never attempted. -/
theorem mainLoop_not_independent :
    (mainLoop badRun ["s_mises.py", "bad.odb", "good.odb"]).2 = some "boom" ∧
    Effect.processOdb "good.odb" ∉ (mainLoop badRun ["s_mises.py", "bad.odb", "good.odb"]).1 := by
  constructor
  · rfl
  · simp [mainLoop, argLoop, badRun]

/-- C7 (amended): archives are processed strictly sequentially by an
unguarded loop; a failure while processing one archive aborts the run, and
the remaining arguments are not attempted. -/
theorem argLoop_failure_aborts (run : String → Except String Unit)
    (a e : String) (rest : List String) (n : Nat)
    (hh : a ≠ "--help") (ht : a ≠ "--test") (he : run a = .error e) :
    argLoop run n (a :: rest) =
      ((if 2 < n then [Effect.echo a] else []) ++ [.processOdb a], some e) := by
  unfold argLoop
  rw [if_neg hh, if_neg ht, he]

/-- C7 amended-claim witness: `argLoop_failure_aborts` on the concrete
failing invocation; `"good.odb"` is not in the emitted trace. -/
theorem argLoop_failure_aborts_witness :
    (("bad.odb" ≠ "--help") ∧ ("bad.odb" ≠ "--test") ∧ badRun "bad.odb" = .error "boom") ∧
    argLoop badRun 3 ["bad.odb", "good.odb"] =
      ([Effect.echo "bad.odb", Effect.processOdb "bad.odb"], some "boom") := by
  have hh : ("bad.odb" : String) ≠ "--help" := by decide
  have ht : ("bad.odb" : String) ≠ "--test" := by decide
  have he : badRun "bad.odb" = .error "boom" := rfl
  refine ⟨⟨hh, ht, he⟩, ?_⟩
  rw [argLoop_failure_aborts badRun "bad.odb" "boom" ["good.odb"] 3 hh ht he]
  rfl

/-- C8 counterexample: `--help` is supplied together with an archive path
and the archive is still processed afterwards, so the program did not exit
after printing the usage documentation. -/
theorem mainLoop_help_does_not_exit :
    Effect.printDoc ∈ (mainLoop okRun ["s_mises.py", "--help", "Job-1.odb"]).1 ∧
    Effect.processOdb "Job-1.odb" ∈ (mainLoop okRun ["s_mises.py", "--help", "Job-1.odb"]).1 := by
  constructor <;> simp [mainLoop, argLoop, okRun]

/-- C8 (amended): a `--help` argument prints the usage documentation and a
`--test` argument runs the doctest self-tests; in both cases the loop then
continues with the remaining arguments (no early exit), so only an
invocation carrying no archive path processes nothing. -/
theorem argLoop_help_test_continue (run : String → Except String Unit) (n : Nat)
    (rest : List String) :
    (argLoop run n ("--help" :: rest) =
      (Effect.printDoc :: (argLoop run n rest).1, (argLoop run n rest).2)) ∧
    (argLoop run n ("--test" :: rest) =
      (Effect.runTests :: (argLoop run n rest).1, (argLoop run n rest).2)) ∧
    (∀ p : String, mainLoop run [p, "--help"] = ([Effect.printDoc], none) ∧
      mainLoop run [p, "--test"] = ([Effect.runTests], none)) := by
  refine ⟨?_, ?_, ?_⟩
  · conv_lhs => rw [argLoop]
    rw [if_pos rfl]
  · conv_lhs => rw [argLoop]
    rw [if_neg (by decide), if_pos rfl]
  · intro p
    exact ⟨rfl, rfl⟩

/-- C3 witness: `sign_trace_shape_error` at a concrete 1-dimensional
input. -/
theorem sign_trace_shape_error_witness :
    ((∃ e, sign_trace ⟨[12], []⟩ = .error e) ↔
      ((NDArray.mk [12] []).shape.length ≠ 2 ∨ (NDArray.mk [12] []).shape.getD 1 0 ≠ 6)) ∧
    ((∃ B, sign_trace ⟨[12], []⟩ = .ok B) ↔
      ((NDArray.mk [12] []).shape.length = 2 ∧ (NDArray.mk [12] []).shape.getD 1 0 = 6)) :=
  sign_trace_shape_error ⟨[12], []⟩

/-- C8 amended-claim witness: `argLoop_help_test_continue` at a concrete
invocation. -/
theorem argLoop_help_test_continue_witness :
    (argLoop okRun 2 ("--help" :: []) =
      (Effect.printDoc :: (argLoop okRun 2 []).1, (argLoop okRun 2 []).2)) ∧
    (argLoop okRun 2 ("--test" :: []) =
      (Effect.runTests :: (argLoop okRun 2 []).1, (argLoop okRun 2 []).2)) ∧
    (∀ p : String, mainLoop okRun [p, "--help"] = ([Effect.printDoc], none) ∧
      mainLoop okRun [p, "--test"] = ([Effect.runTests], none)) :=
  argLoop_help_test_continue okRun 2 []
